import Mathlib

/-!
# The design patterns of `patterns.cpp`

A shallow embedding of `src/patterns.cpp`: the Builder classes (`Pizza`,
`PizzaBuilder`, `Cook`), the Decorator (`Burger`), the Observer (`Database`),
the `Singleton`, and `main` with its five blocks.

* Objects created with `new` live in a heap; an address is an index into the
  heap's cell list and `new` appends a cell, so a new object never shares its
  address with an object that is still alive.
* A C++ pointer is an `Option Addr`: `none` is the null pointer.
* A member function takes its receiver `this` as a pointer and runs on the
  `World` (the two heaps and the text written to `std::cout`).
* The source raises no error anywhere.  The only way an operation has no
  result is that it goes through a pointer that designates no live object,
  which C++ leaves undefined; the embedding reports that as `Fault.badDeref`.
-/

namespace Patterns

/-! ## Memory model -/

/-- An address: the index of a heap cell. -/
abbrev Addr := Nat

/-- A C++ pointer: `none` is the null pointer, `some a` points at cell `a`. -/
abbrev Ptr := Option Addr

/-- The ways an operation can end without a result.  `badDeref` is the
dereference of a pointer that designates no live object (undefined behaviour in
the source, which checks nothing).  `InvalidState` is the error condition the
specification names; no operation of the source raises it. -/
inductive Fault where
  | InvalidState
  | badDeref
deriving DecidableEq, Repr

/-- A heap of objects of one class: cell `a` holds `some v` while the object at
address `a` is alive, `none` once it has been deleted. -/
structure Heap (α : Type) where
  cells : List (Option α)
deriving DecidableEq, Repr

/-- The object a given address designates, if it is alive. -/
def Heap.read {α : Type} (h : Heap α) (a : Addr) : Option α :=
  (h.cells[a]?).join

/-- Overwrite the object at address `a`. -/
def Heap.write {α : Type} (h : Heap α) (a : Addr) (v : α) : Heap α :=
  ⟨h.cells.set a (some v)⟩

/-- The `new` expression: the object is placed in a cell of its own at the end
of the heap; the result is its address and the grown heap. -/
def Heap.alloc {α : Type} (h : Heap α) (v : α) : Addr × Heap α :=
  (h.cells.length, ⟨h.cells ++ [some v]⟩)

/-! ## The classes -/

/-- Source: `class Pizza`: its three private `std::string` members. -/
structure Pizza where
  m_dough : String
  m_sauce : String
  m_topping : String
deriving DecidableEq, Repr

/-- The dynamic type of a `PizzaBuilder` object: the abstract base has exactly
two concrete subclasses. -/
inductive BuilderClass where
  | Hawaiian
  | Spicy
deriving DecidableEq, Repr

/-- Source: `class PizzaBuilder`: the dynamic type (which overrides are called) and the
protected member `Pizza* m_pizza`. -/
structure PizzaBuilder where
  cls : BuilderClass
  m_pizza : Ptr
deriving DecidableEq, Repr

/-- Source: `class Cook`: its private member `PizzaBuilder* m_pizzaBuilder`. -/
structure Cook where
  m_pizzaBuilder : Ptr
deriving DecidableEq, Repr

/-- The program state: the `Pizza` objects and the builder objects on the heap,
and everything written to `std::cout` so far. -/
structure World where
  pizzas : Heap Pizza
  builders : Heap PizzaBuilder
  cout : String
deriving DecidableEq, Repr

/-- A computation on the world that ends with a result and a new world, or with
a fault. -/
abbrev Exec (α : Type) := World → Except Fault (α × World)

/-- Sequencing of two computations: a fault in the first ends the whole. -/
def Exec.andThen {α β : Type} (x : Exec α) (f : α → Exec β) : Exec β := fun w =>
  match x w with
  | .error e => .error e
  | .ok (a, w1) => f a w1

/-- Read the `Pizza` a pointer designates (`*p`). -/
def derefPizza (p : Ptr) : Exec Pizza := fun w =>
  match p with
  | none => .error .badDeref
  | some a =>
    match w.pizzas.read a with
    | none => .error .badDeref
    | some v => .ok (v, w)

/-- Read the builder a pointer designates (`*p`). -/
def derefBuilder (p : Ptr) : Exec PizzaBuilder := fun w =>
  match p with
  | none => .error .badDeref
  | some a =>
    match w.builders.read a with
    | none => .error .badDeref
    | some v => .ok (v, w)

/-- Assign through a `Pizza` pointer: the members of `*p` become those of
`f (*p)`. -/
def updatePizza (p : Ptr) (f : Pizza → Pizza) : Exec Unit := fun w =>
  match p with
  | none => .error .badDeref
  | some a =>
    match w.pizzas.read a with
    | none => .error .badDeref
    | some v => .ok ((), { w with pizzas := w.pizzas.write a (f v) })

/-- Assign through a builder pointer. -/
def updateBuilder (p : Ptr) (f : PizzaBuilder → PizzaBuilder) : Exec Unit := fun w =>
  match p with
  | none => .error .badDeref
  | some a =>
    match w.builders.read a with
    | none => .error .badDeref
    | some v => .ok ((), { w with builders := w.builders.write a (f v) })

/-- The expression `new Pizza()`: a `Pizza` whose three strings are
default-constructed, hence empty. -/
def newPizza : Exec Ptr := fun w =>
  let r := w.pizzas.alloc ⟨"", "", ""⟩
  .ok (some r.1, { w with pizzas := r.2 })

/-- Write a string to `std::cout` (`std::cout << s`). -/
def coutWrite (s : String) : Exec Unit := fun w =>
  .ok ((), { w with cout := w.cout ++ s })

/-! ## `class Pizza` -/

/-- Source: `void Pizza::setDough(const std::string& dough) { m_dough = dough; }` -/
def Pizza.setDough (this : Ptr) (dough : String) : Exec Unit :=
  updatePizza this (fun p => { p with m_dough := dough })

/-- Source: `void Pizza::setSauce(const std::string& sauce) { m_sauce = sauce; }` -/
def Pizza.setSauce (this : Ptr) (sauce : String) : Exec Unit :=
  updatePizza this (fun p => { p with m_sauce := sauce })

/-- Source: `void Pizza::setTopping(const std::string& topping) { m_topping = topping; }` -/
def Pizza.setTopping (this : Ptr) (topping : String) : Exec Unit :=
  updatePizza this (fun p => { p with m_topping := topping })

/-- Source: `void Pizza::describe() const`: the seven insertions into `std::cout`, in
order, the last one being `std::endl` (a line feed). -/
def Pizza.describe (this : Ptr) : Exec Unit :=
  (derefPizza this).andThen fun p =>
  (coutWrite "Pizza with ").andThen fun _ =>
  (coutWrite p.m_dough).andThen fun _ =>
  (coutWrite " dough, ").andThen fun _ =>
  (coutWrite p.m_sauce).andThen fun _ =>
  (coutWrite " sauce and ").andThen fun _ =>
  (coutWrite p.m_topping).andThen fun _ =>
  (coutWrite " topping.").andThen fun _ =>
  coutWrite "\n"

/-! ## `class PizzaBuilder` and its two subclasses -/

/-- Source: `Pizza* PizzaBuilder::getPizza() { return m_pizza; }` -/
def PizzaBuilder.getPizza (this : Ptr) : Exec Ptr :=
  (derefBuilder this).andThen fun b w => .ok (b.m_pizza, w)

/-- Source: `void PizzaBuilder::createNewPizzaProduct() { m_pizza = new Pizza(); }` -/
def PizzaBuilder.createNewPizzaProduct (this : Ptr) : Exec Unit :=
  newPizza.andThen fun p =>
  updateBuilder this (fun b => { b with m_pizza := p })

/-- Source: `HawaiianPizzaBuilder::buildDough`: `m_pizza->setDough("cross");` -/
def HawaiianPizzaBuilder.buildDough (this : Ptr) : Exec Unit :=
  (derefBuilder this).andThen fun b => Pizza.setDough b.m_pizza "cross"

/-- Source: `HawaiianPizzaBuilder::buildSauce`: `m_pizza->setSauce("mild");` -/
def HawaiianPizzaBuilder.buildSauce (this : Ptr) : Exec Unit :=
  (derefBuilder this).andThen fun b => Pizza.setSauce b.m_pizza "mild"

/-- Source: `HawaiianPizzaBuilder::buildTopping`:
`m_pizza->setTopping("Ham and Pineapple");` -/
def HawaiianPizzaBuilder.buildTopping (this : Ptr) : Exec Unit :=
  (derefBuilder this).andThen fun b => Pizza.setTopping b.m_pizza "Ham and Pineapple"

/-- Source: `SpicyPizzaBuilder::buildDough`: `m_pizza->setDough("pan baked");` -/
def SpicyPizzaBuilder.buildDough (this : Ptr) : Exec Unit :=
  (derefBuilder this).andThen fun b => Pizza.setDough b.m_pizza "pan baked"

/-- Source: `SpicyPizzaBuilder::buildSauce`: `m_pizza->setSauce("hot");` -/
def SpicyPizzaBuilder.buildSauce (this : Ptr) : Exec Unit :=
  (derefBuilder this).andThen fun b => Pizza.setSauce b.m_pizza "hot"

/-- Source: `SpicyPizzaBuilder::buildTopping`:
`m_pizza->setTopping("pepperoni+salami");` -/
def SpicyPizzaBuilder.buildTopping (this : Ptr) : Exec Unit :=
  (derefBuilder this).andThen fun b => Pizza.setTopping b.m_pizza "pepperoni+salami"

/-- The pure virtual `PizzaBuilder::buildDough`: the call goes to the override
of the receiver's dynamic type. -/
def PizzaBuilder.buildDough (this : Ptr) : Exec Unit :=
  (derefBuilder this).andThen fun b =>
  match b.cls with
  | .Hawaiian => HawaiianPizzaBuilder.buildDough this
  | .Spicy => SpicyPizzaBuilder.buildDough this

/-- The pure virtual `PizzaBuilder::buildSauce`, dispatched on the dynamic type. -/
def PizzaBuilder.buildSauce (this : Ptr) : Exec Unit :=
  (derefBuilder this).andThen fun b =>
  match b.cls with
  | .Hawaiian => HawaiianPizzaBuilder.buildSauce this
  | .Spicy => SpicyPizzaBuilder.buildSauce this

/-- The pure virtual `PizzaBuilder::buildTopping`, dispatched on the dynamic
type. -/
def PizzaBuilder.buildTopping (this : Ptr) : Exec Unit :=
  (derefBuilder this).andThen fun b =>
  match b.cls with
  | .Hawaiian => HawaiianPizzaBuilder.buildTopping this
  | .Spicy => SpicyPizzaBuilder.buildTopping this

/-! ## `class Cook` -/

/-- Source: `void Cook::setPizzaBuilder(PizzaBuilder* pb) { m_pizzaBuilder = pb; }`: the
cook with its member overwritten. -/
def Cook.setPizzaBuilder (_this : Cook) (pb : Ptr) : Cook :=
  { m_pizzaBuilder := pb }

/-- Source: `Pizza* Cook::getPizza() { return m_pizzaBuilder->getPizza(); }` -/
def Cook.getPizza (this : Cook) : Exec Ptr :=
  PizzaBuilder.getPizza this.m_pizzaBuilder

/-- Source: `void Cook::constructPizza()`: the four calls on `m_pizzaBuilder`, in the
order of the source. -/
def Cook.constructPizza (this : Cook) : Exec Unit :=
  (PizzaBuilder.createNewPizzaProduct this.m_pizzaBuilder).andThen fun _ =>
  (PizzaBuilder.buildDough this.m_pizzaBuilder).andThen fun _ =>
  (PizzaBuilder.buildSauce this.m_pizzaBuilder).andThen fun _ =>
  PizzaBuilder.buildTopping this.m_pizzaBuilder


/-! ## Auxiliary definitions for stating and checking the properties -/

/-- The string literal that the `buildDough` override of a dynamic type passes
to `setDough` (source lines 287 and 305). -/
def doughOf : BuilderClass → String
  | .Hawaiian => "cross"
  | .Spicy => "pan baked"

/-- The string literal that the `buildSauce` override of a dynamic type passes
to `setSauce` (source lines 291 and 309). -/
def sauceOf : BuilderClass → String
  | .Hawaiian => "mild"
  | .Spicy => "hot"

/-- The string literal that the `buildTopping` override of a dynamic type
passes to `setTopping` (source lines 295 and 313). -/
def toppingOf : BuilderClass → String
  | .Hawaiian => "Ham and Pineapple"
  | .Spicy => "pepperoni+salami"

/-- Run a list of calls one after the other and collect their results, in
order; a fault in one call ends the run. -/
def Exec.runAll {α : Type} : List (Exec α) → Exec (List α)
  | [] => fun w => .ok ([], w)
  | x :: xs => x.andThen fun r => (Exec.runAll xs).andThen fun rs w => .ok (r :: rs, w)

/-- The state of `main` after its two `new` expressions (source lines 344 and
345): a `HawaiianPizzaBuilder` at address 0 and a `SpicyPizzaBuilder` at
address 1, both value-initialised (so `m_pizza` is null), no `Pizza` yet and
nothing printed. -/
def worldAfterNew : World :=
  { pizzas := ⟨[]⟩
    builders := ⟨[some ⟨.Hawaiian, none⟩, some ⟨.Spicy, none⟩]⟩
    cout := "" }

/-- The state of `main` after its first `cook.constructPizza()` (source line
348): the Hawaiian builder has the finished `Pizza` at address 0 bound. -/
def worldAfterHawaiian : World :=
  { pizzas := ⟨[some ⟨"cross", "mild", "Ham and Pineapple"⟩]⟩
    builders := ⟨[some ⟨.Hawaiian, some 0⟩, some ⟨.Spicy, none⟩]⟩
    cout := "" }

/-- A sample state in which a Hawaiian builder (address 0) and a Spicy builder
(address 1) both have the `Pizza` at address 0 bound, whose members hold
arbitrary text, one of them empty. -/
def worldWithPizza : World :=
  { pizzas := ⟨[some ⟨"thin", "", "olives"⟩]⟩
    builders := ⟨[some ⟨.Hawaiian, some 0⟩, some ⟨.Spicy, some 0⟩]⟩
    cout := "" }

/-! ## Build steps in an arbitrary order -/

/-- Source: the `Burger` class hierarchy.  A decorator keeps in its private
member `burger` the pointer it was constructed with and never reassigns it, so
a burger object is given by its dynamic type and, for a decorator, by the
burger it wraps. -/
inductive Burger where
  | BeefBurger
  | BurgerDecorator (burger : Burger)
  | Bacon (burger : Burger)
  | Cheese (burger : Burger)
deriving DecidableEq, Repr

/-- Source: the virtual `std::string describe()`, with its four overrides.
`BurgerDecorator::describe()` is `return burger->describe();`; `Bacon` and
`Cheese` return `BurgerDecorator::describe() + ", with added ..."`, where the
qualified (non-virtual) call to the base class is written out as the virtual
call on the wrapped burger that its body makes. -/
def Burger.describe : Burger → String
  | .BeefBurger => "I am a beef burger"
  | .BurgerDecorator burger => burger.describe
  | .Bacon burger => burger.describe ++ ", with added bacon"
  | .Cheese burger => burger.describe ++ ", with added cheese"

/-- The two wrappers that add text: the transformations of the decorator
chain. -/
inductive Wrapper where
  | bacon
  | cheese
deriving DecidableEq, Repr

/-- Construct the decorator object of a wrapper around a burger:
`new Bacon(b)` or `new Cheese(b)`. -/
def Wrapper.wrap : Wrapper → Burger → Burger
  | .bacon, b => .Bacon b
  | .cheese, b => .Cheese b

/-- The text transformation of a wrapper, as the specification sees a
decorator: the suffix it adds to a description. -/
def Wrapper.suffix : Wrapper → String
  | .bacon => ", with added bacon"
  | .cheese => ", with added cheese"

/-- Wrap a burger in a list of wrappers, the first of the list innermost. -/
def wrapAll : List Wrapper → Burger → Burger
  | [], b => b
  | x :: xs, b => wrapAll xs (x.wrap b)

/-- The specification's reading of a decorator chain: a list of
transformations applied, first to last, to a base value. -/
def applyTransformations : List Wrapper → String → String
  | [], s => s
  | x :: xs, s => applyTransformations xs (s ++ x.suffix)

/-- Concatenation of a list of strings, in order. -/
def concatAll : List String → String
  | [] => ""
  | s :: ss => s ++ concatAll ss

/-! ## Observer: `Database` -/

/-- Source: `class Database`: its private member
`std::vector<Observer*> observers`. -/
structure Database where
  observers : List Ptr
deriving DecidableEq, Repr

/-- Source: `void registerListener(Observer* o) { observers.push_back(o); }` -/
def Database.registerListener (this : Database) (o : Ptr) : Database :=
  { observers := this.observers ++ [o] }

/-- The erase-remove idiom `v.erase(std::remove(v.begin(), v.end(), o),
v.end())`: `std::remove` moves the elements that do not compare equal to `o`
to the front, in their order, and `erase` drops the rest. -/
def eraseRemove : List Ptr → Ptr → List Ptr
  | [], _ => []
  | x :: xs, o => if x = o then eraseRemove xs o else x :: eraseRemove xs o

/-- Source: `void unregisterListener(Observer* o)`: the erase-remove idiom on
`observers`. -/
def Database.unregisterListener (this : Database) (o : Ptr) : Database :=
  { observers := eraseRemove this.observers o }

/-- The range-based loop `for (Observer* o : observers) o->update();`, for an
arbitrary effect `update` of the virtual call on a state `σ`: a fault in one
call ends the loop. -/
def notifyEach {σ : Type} (update : Ptr → σ → Except Fault (Unit × σ)) :
    List Ptr → σ → Except Fault (Unit × σ)
  | [], s => .ok ((), s)
  | o :: os, s =>
    match update o s with
    | .error e => .error e
    | .ok (_, s1) => notifyEach update os s1

/-- Source: `void Database::updateData()`: the loop over `observers`; the
result holds the database after the call. -/
def Database.updateData {σ : Type} (this : Database)
    (update : Ptr → σ → Except Fault (Unit × σ)) (s : σ) : Except Fault (Database × σ) :=
  match notifyEach update this.observers s with
  | .error e => .error e
  | .ok (_, s1) => .ok (this, s1)

/-- An observer whose `update()` appends the pointer it was called through to a
log: it records which observers are notified, and in which order. -/
def recordUpdate (o : Ptr) (log : List Ptr) : Except Fault (Unit × List Ptr) :=
  .ok ((), log ++ [o])

/-- Source: `void InterestedParty::update()`: prints "Received notification"
and a line end.  The call through a null pointer has no result; a non-null
observer pointer is taken to designate a live `InterestedParty`. -/
def InterestedParty.update (this : Ptr) : Exec Unit :=
  match this with
  | none => fun _ => .error .badDeref
  | some _ =>
    (coutWrite "Received notification").andThen fun _ =>
    coutWrite "\n"

/-! ## `class Singleton` -/

/-- The state the `Singleton` class lives in: the static member
`Singleton* instance` and the `Singleton` objects created so far (the class has
no data members, and only `getInstance` can call its private constructor). -/
structure SingletonState where
  instancePtr : Ptr
  objects : Heap Unit
deriving DecidableEq, Repr

/-- The state at program start: the static pointer is zero-initialised and no
`Singleton` exists. -/
def SingletonState.start : SingletonState :=
  { instancePtr := none, objects := ⟨[]⟩ }

/-- Source: `static Singleton* getInstance()`:
`if(!instance) { instance = new Singleton(); } return instance;` -/
def Singleton.getInstance (s : SingletonState) : Ptr × SingletonState :=
  match s.instancePtr with
  | none =>
    let r := s.objects.alloc ()
    (some r.1, { instancePtr := some r.1, objects := r.2 })
  | some a => (some a, s)

/-- The pointers returned by `n` calls of `getInstance` in a row, and the state
after them. -/
def Singleton.getInstanceTimes : Nat → SingletonState → List Ptr × SingletonState
  | 0, s => ([], s)
  | n + 1, s =>
    let r := Singleton.getInstance s
    let rest := Singleton.getInstanceTimes n r.2
    (r.1 :: rest.1, rest.2)

/-! ## `main` -/

/-- The `delete` expression on a heap: the cell of the object becomes dead. -/
def Heap.free {α : Type} (h : Heap α) (a : Addr) : Heap α :=
  ⟨h.cells.set a none⟩

/-- The expressions `new HawaiianPizzaBuilder()` and `new SpicyPizzaBuilder()`:
the classes have no user-provided constructor, so the object is
value-initialised and its `m_pizza` is null. -/
def newBuilder (cls : BuilderClass) : Exec Ptr := fun w =>
  let r := w.builders.alloc ⟨cls, none⟩
  .ok (some r.1, { w with builders := r.2 })

/-- The statement `delete p;` for a `Pizza*`: nothing for a null pointer, the
end of the object for a live one, no result otherwise. -/
def deletePizza (p : Ptr) : Exec Unit := fun w =>
  match p with
  | none => .ok ((), w)
  | some a =>
    match w.pizzas.read a with
    | none => .error .badDeref
    | some _ => .ok ((), { w with pizzas := w.pizzas.free a })

/-- The statement `delete p;` for a `PizzaBuilder*`: the virtual destructors
have empty bodies, so only the builder object itself ends. -/
def deleteBuilder (p : Ptr) : Exec Unit := fun w =>
  match p with
  | none => .ok ((), w)
  | some a =>
    match w.builders.read a with
    | none => .error .badDeref
    | some _ => .ok ((), { w with builders := w.builders.free a })

/-- The call `getchar();`: standard input is not part of the state and `main`
discards the character, so the call only returns. -/
def getchar : Exec Unit := fun w =>
  .ok ((), w)

/-- The statement `return r;` of `main`. -/
def returnValue (r : Int) : Exec (Option Int) := fun w =>
  .ok (some r, w)

/-- Statement sequencing in the body of `main`: the statements `rest` run only
if the statements before them have not executed a `return`. -/
def Exec.thenUnlessReturned (x : Exec (Option Int)) (rest : Exec (Option Int)) :
    Exec (Option Int) :=
  x.andThen fun r =>
  match r with
  | some v => fun w => .ok (some v, w)
  | none => rest

/-- The state at the start of `main`: no object on the heap, nothing printed. -/
def initialWorld : World :=
  { pizzas := ⟨[]⟩, builders := ⟨[]⟩, cout := "" }

/-- Source: the Builder block of `main` (lines 343 to 365), up to and including
its `return 0;`.  The member of the local `Cook cook;` is uninitialised until
the first `setPizzaBuilder`; it is modelled as null. -/
def builderBlock : Exec (Option Int) :=
  let cook : Cook := { m_pizzaBuilder := none }
  (newBuilder .Hawaiian).andThen fun hawaiianPizzaBuilder =>
  (newBuilder .Spicy).andThen fun spicyPizzaBuilder =>
  let cook1 := cook.setPizzaBuilder hawaiianPizzaBuilder
  cook1.constructPizza.andThen fun _ =>
  cook1.getPizza.andThen fun hawaiianPizza =>
  (Pizza.describe hawaiianPizza).andThen fun _ =>
  let cook2 := cook1.setPizzaBuilder spicyPizzaBuilder
  cook2.constructPizza.andThen fun _ =>
  cook2.getPizza.andThen fun spicyPizza =>
  (Pizza.describe spicyPizza).andThen fun _ =>
  (deleteBuilder hawaiianPizzaBuilder).andThen fun _ =>
  (deleteBuilder spicyPizzaBuilder).andThen fun _ =>
  (deletePizza hawaiianPizza).andThen fun _ =>
  (deletePizza spicyPizza).andThen fun _ =>
  getchar.andThen fun _ =>
  returnValue 0

/-- Source: the Observer block of `main` (lines 369 to 380).  The `Database`
and the `InterestedParty` are used by this block only: the database is kept as
a local value and the observer is the first object of a heap of its own; their
`delete` has no output. -/
def observerBlock : Exec (Option Int) :=
  let db : Database := { observers := [] }
  let ip : Ptr := some ((Heap.mk []).alloc ()).1
  let db1 := db.registerListener ip
  Exec.andThen (db1.updateData InterestedParty.update) fun _ =>
  getchar.andThen fun _ =>
  returnValue 0

/-- Source: the Decorator block of `main` (lines 384 to 391):
`std::cout << burger->describe() << std::endl;` for
`new Cheese(new Bacon(new BeefBurger()))`. -/
def decoratorBlock : Exec (Option Int) :=
  let burger : Burger := .Cheese (.Bacon .BeefBurger)
  (coutWrite burger.describe).andThen fun _ =>
  (coutWrite "\n").andThen fun _ =>
  getchar.andThen fun _ =>
  returnValue 0

/-- The dynamic type of a `QuackBehaviour` object. -/
inductive QuackClass where
  | QuackBehaviour
  | LoudQuackBehaviour
deriving DecidableEq, Repr

/-- Source: the virtual `void doQuack()`: "Quack" for the base class, "Quack!!"
for `LoudQuackBehaviour`, each with a line end. -/
def QuackClass.doQuack : QuackClass → Exec Unit
  | .QuackBehaviour => (coutWrite "Quack").andThen fun _ => coutWrite "\n"
  | .LoudQuackBehaviour => (coutWrite "Quack!!").andThen fun _ => coutWrite "\n"

/-- Source: `class Duck`: its private member `QuackBehaviour* quacker`. -/
structure Duck where
  quacker : Ptr
deriving DecidableEq, Repr

/-- Source: `void Duck::setQuack(QuackBehaviour* quackBehaviour)`. -/
def Duck.setQuack (_this : Duck) (quackBehaviour : Ptr) : Duck :=
  { quacker := quackBehaviour }

/-- Source: `void Duck::quack() { quacker->doQuack(); }`, on the heap `objs` of
`QuackBehaviour` objects. -/
def Duck.quack (this : Duck) (objs : Heap QuackClass) : Exec Unit :=
  match this.quacker with
  | none => fun _ => .error .badDeref
  | some a =>
    match objs.read a with
    | none => fun _ => .error .badDeref
    | some k => k.doQuack

/-- The statement `delete p;` on a heap of objects without destructor output. -/
def deleteIn {α : Type} (objs : Heap α) (p : Ptr) : Except Fault (Heap α) :=
  match p with
  | none => .ok objs
  | some a =>
    match objs.read a with
    | none => .error .badDeref
    | some _ => .ok (objs.free a)

/-- Source: the Strategy block of `main` (lines 395 to 406).  The
`QuackBehaviour` objects live in a heap of this block.  At `return 0;` the
local `duck` is destroyed and `Duck::~Duck` deletes `quacker`, which
`delete loudQuack;` has deleted already. -/
def strategyBlock : Exec (Option Int) :=
  let duck : Duck := { quacker := none }
  let r := (Heap.mk []).alloc QuackClass.LoudQuackBehaviour
  let loudQuack : Ptr := some r.1
  let duck1 := duck.setQuack loudQuack
  (duck1.quack r.2).andThen fun _ =>
  match deleteIn r.2 loudQuack with
  | .error e => fun _ => .error e
  | .ok objs =>
    getchar.andThen fun _ =>
    match deleteIn objs duck1.quacker with
    | .error e => fun _ => .error e
    | .ok _ => returnValue 0

/-- Source: `enum class ShapeType`. -/
inductive ShapeType where
  | Circle
  | Square
deriving DecidableEq, Repr

/-- Source: `class Circle` and `class Square`: the dynamic type and the private
member `name` their constructor sets. -/
structure Shape where
  cls : ShapeType
  name : String
deriving DecidableEq, Repr

/-- Source: `Shape* ShapeFactory::getShape(ShapeType type)`: the object the
`switch` creates (its `default` branch is not reachable for the two
enumerators). -/
def ShapeFactory.getShape (type : ShapeType) : Shape :=
  match type with
  | .Circle => { cls := .Circle, name := "Circle" }
  | .Square => { cls := .Square, name := "Square" }

/-- Source: `void draw()` of `Circle` and `Square`. -/
def Shape.draw (this : Shape) : Exec Unit :=
  (coutWrite "drawing ").andThen fun _ =>
  (coutWrite this.name).andThen fun _ =>
  coutWrite "\n"

/-- The statement `delete shape;`: the destructor of the dynamic type, then the
destructor of `Shape`, each printing its line. -/
def Shape.delete (this : Shape) : Exec Unit :=
  (coutWrite this.name).andThen fun _ =>
  (coutWrite " destructor called").andThen fun _ =>
  (coutWrite "\n").andThen fun _ =>
  (coutWrite "Pure virtual destructor called").andThen fun _ =>
  coutWrite "\n"

/-- Source: the Factory block of `main` (lines 410 to 422). -/
def factoryBlock : Exec (Option Int) :=
  let shape := ShapeFactory.getShape .Circle
  shape.draw.andThen fun _ =>
  let anotherShape := ShapeFactory.getShape .Square
  anotherShape.draw.andThen fun _ =>
  shape.delete.andThen fun _ =>
  anotherShape.delete.andThen fun _ =>
  getchar.andThen fun _ =>
  returnValue 0

/-- Source: `int main(int argc, char** args)`: its five blocks in the order of
the source, each ending in `return 0;`. -/
def main : Exec (Option Int) :=
  builderBlock.thenUnlessReturned
    (observerBlock.thenUnlessReturned
      (decoratorBlock.thenUnlessReturned
        (strategyBlock.thenUnlessReturned factoryBlock)))

/-! ## Heap lemmas -/

theorem Heap.read_lt {α : Type} (h : Heap α) (a : Nat) (v : α) (hr : h.read a = some v) :
    a < h.cells.length := by
  unfold Heap.read at hr
  by_contra hn
  have hle : h.cells.length ≤ a := by omega
  rw [List.getElem?_eq_none hle] at hr
  simp at hr

theorem Heap.read_length {α : Type} (h : Heap α) : h.read h.cells.length = none := by
  unfold Heap.read
  rw [List.getElem?_eq_none (le_refl _)]
  rfl

theorem Heap.read_write_same {α : Type} (h : Heap α) (a : Nat) (v x : α)
    (hr : h.read a = some x) : (h.write a v).read a = some v := by
  have hlt := h.read_lt a x hr
  simp [Heap.read, Heap.write, hlt]

theorem Heap.read_write_other {α : Type} (h : Heap α) (a q : Nat) (v : α) (hq : q ≠ a) :
    (h.write a v).read q = h.read q := by
  simp [Heap.read, Heap.write, List.getElem?_set, Ne.symm hq]

theorem Heap.length_write {α : Type} (h : Heap α) (a : Nat) (v : α) :
    (h.write a v).cells.length = h.cells.length := by
  simp [Heap.write]

theorem Heap.read_alloc_new {α : Type} (h : Heap α) (v : α) :
    (h.alloc v).2.read h.cells.length = some v := by
  simp [Heap.read, Heap.alloc]

theorem Heap.read_alloc_other {α : Type} (h : Heap α) (v : α) (q : Nat)
    (hq : q ≠ h.cells.length) : (h.alloc v).2.read q = h.read q := by
  unfold Heap.read Heap.alloc
  by_cases hlt : q < h.cells.length
  · simp [List.getElem?_append_left hlt]
  · have h1 : (h.cells ++ [some v]).length ≤ q := by
      rw [List.length_append, List.length_singleton]; omega
    have h2 : h.cells.length ≤ q := by omega
    rw [List.getElem?_eq_none h1, List.getElem?_eq_none h2]


/-! ## One-step lemmas for the primitive operations -/

theorem derefBuilder_live (w : World) (a : Nat) (b : PizzaBuilder)
    (hb : w.builders.read a = some b) : derefBuilder (some a) w = .ok (b, w) := by
  simp [derefBuilder, hb]

theorem derefPizza_live (w : World) (p : Nat) (z : Pizza)
    (hz : w.pizzas.read p = some z) : derefPizza (some p) w = .ok (z, w) := by
  simp [derefPizza, hz]

theorem updatePizza_live (w : World) (p : Nat) (z : Pizza) (f : Pizza → Pizza)
    (hz : w.pizzas.read p = some z) :
    updatePizza (some p) f w = .ok ((), { w with pizzas := w.pizzas.write p (f z) }) := by
  simp [updatePizza, hz]

theorem updateBuilder_live (w : World) (a : Nat) (b : PizzaBuilder)
    (f : PizzaBuilder → PizzaBuilder) (hb : w.builders.read a = some b) :
    updateBuilder (some a) f w = .ok ((), { w with builders := w.builders.write a (f b) }) := by
  simp [updateBuilder, hb]

theorem buildDough_live (w : World) (a p : Nat) (b : PizzaBuilder) (z : Pizza)
    (hb : w.builders.read a = some b) (hp : b.m_pizza = some p)
    (hz : w.pizzas.read p = some z) :
    PizzaBuilder.buildDough (some a) w
      = .ok ((), { w with pizzas := w.pizzas.write p { z with m_dough := doughOf b.cls } }) := by
  cases hc : b.cls <;>
    simp [PizzaBuilder.buildDough, HawaiianPizzaBuilder.buildDough, SpicyPizzaBuilder.buildDough,
      Exec.andThen, derefBuilder, Pizza.setDough, updatePizza, hb, hp, hz, hc, doughOf]

theorem buildSauce_live (w : World) (a p : Nat) (b : PizzaBuilder) (z : Pizza)
    (hb : w.builders.read a = some b) (hp : b.m_pizza = some p)
    (hz : w.pizzas.read p = some z) :
    PizzaBuilder.buildSauce (some a) w
      = .ok ((), { w with pizzas := w.pizzas.write p { z with m_sauce := sauceOf b.cls } }) := by
  cases hc : b.cls <;>
    simp [PizzaBuilder.buildSauce, HawaiianPizzaBuilder.buildSauce, SpicyPizzaBuilder.buildSauce,
      Exec.andThen, derefBuilder, Pizza.setSauce, updatePizza, hb, hp, hz, hc, sauceOf]

theorem buildTopping_live (w : World) (a p : Nat) (b : PizzaBuilder) (z : Pizza)
    (hb : w.builders.read a = some b) (hp : b.m_pizza = some p)
    (hz : w.pizzas.read p = some z) :
    PizzaBuilder.buildTopping (some a) w
      = .ok ((), { w with pizzas := w.pizzas.write p { z with m_topping := toppingOf b.cls } }) := by
  cases hc : b.cls <;>
    simp [PizzaBuilder.buildTopping, HawaiianPizzaBuilder.buildTopping,
      SpicyPizzaBuilder.buildTopping, Exec.andThen, derefBuilder, Pizza.setTopping, updatePizza,
      hb, hp, hz, hc, toppingOf]

theorem createNewPizzaProduct_live (w : World) (a : Nat) (b : PizzaBuilder)
    (hb : w.builders.read a = some b) :
    PizzaBuilder.createNewPizzaProduct (some a) w
      = .ok ((), { w with
          pizzas := (w.pizzas.alloc ⟨"", "", ""⟩).2
          builders := w.builders.write a { b with m_pizza := some w.pizzas.cells.length } }) := by
  simp [PizzaBuilder.createNewPizzaProduct, Exec.andThen, newPizza, updateBuilder, hb, Heap.alloc]

theorem getPizza_live (w : World) (a : Nat) (b : PizzaBuilder)
    (hb : w.builders.read a = some b) :
    PizzaBuilder.getPizza (some a) w = .ok (b.m_pizza, w) := by
  simp [PizzaBuilder.getPizza, Exec.andThen, derefBuilder, hb]

/-- The world `Cook::constructPizza` leaves behind when the cook's builder is
alive: a new `Pizza` at the first unused address, carrying the three constants
of the builder's dynamic type, bound to the builder; nothing else differs. -/
theorem constructPizza_live (c : Cook) (w : World) (a : Nat) (b : PizzaBuilder)
    (hc : c.m_pizzaBuilder = some a) (hb : w.builders.read a = some b) :
    ∃ w1, c.constructPizza w = .ok ((), w1)
      ∧ w1.builders.read a = some { b with m_pizza := some w.pizzas.cells.length }
      ∧ (∀ q : Nat, q ≠ a → w1.builders.read q = w.builders.read q)
      ∧ w1.builders.cells.length = w.builders.cells.length
      ∧ w1.pizzas.read w.pizzas.cells.length
          = some ⟨doughOf b.cls, sauceOf b.cls, toppingOf b.cls⟩
      ∧ (∀ q : Nat, q ≠ w.pizzas.cells.length → w1.pizzas.read q = w.pizzas.read q)
      ∧ w1.pizzas.cells.length = w.pizzas.cells.length + 1
      ∧ w1.cout = w.cout := by
  obtain ⟨P, B, o⟩ := w
  have hB : B.read a = some b := hb
  obtain ⟨B1, hB1⟩ : ∃ x, x = B.write a { b with m_pizza := some P.cells.length } := ⟨_, rfl⟩
  obtain ⟨P1, hP1⟩ : ∃ x, x = (P.alloc ⟨"", "", ""⟩).2 := ⟨_, rfl⟩
  obtain ⟨P2, hP2⟩ : ∃ x, x = P1.write P.cells.length ⟨doughOf b.cls, "", ""⟩ := ⟨_, rfl⟩
  obtain ⟨P3, hP3⟩ : ∃ x, x = P2.write P.cells.length ⟨doughOf b.cls, sauceOf b.cls, ""⟩ :=
    ⟨_, rfl⟩
  obtain ⟨P4, hP4⟩ :
      ∃ x, x = P3.write P.cells.length ⟨doughOf b.cls, sauceOf b.cls, toppingOf b.cls⟩ :=
    ⟨_, rfl⟩
  have hb1 : B1.read a = some { b with m_pizza := some P.cells.length } := by
    rw [hB1]; exact Heap.read_write_same B a _ b hB
  have hz1 : P1.read P.cells.length = some ⟨"", "", ""⟩ := by
    rw [hP1]; exact Heap.read_alloc_new _ _
  have hz2 : P2.read P.cells.length = some ⟨doughOf b.cls, "", ""⟩ := by
    rw [hP2]; exact Heap.read_write_same _ _ _ _ hz1
  have hz3 : P3.read P.cells.length = some ⟨doughOf b.cls, sauceOf b.cls, ""⟩ := by
    rw [hP3]; exact Heap.read_write_same _ _ _ _ hz2
  have hz4 : P4.read P.cells.length
      = some ⟨doughOf b.cls, sauceOf b.cls, toppingOf b.cls⟩ := by
    rw [hP4]; exact Heap.read_write_same _ _ _ _ hz3
  refine ⟨⟨P4, B1, o⟩, ?_, hb1, ?_, ?_, hz4, ?_, ?_, rfl⟩
  · unfold Cook.constructPizza Exec.andThen
    rw [hc, createNewPizzaProduct_live _ a b hb]
    dsimp only
    rw [← hB1, ← hP1, buildDough_live ⟨P1, B1, o⟩ a P.cells.length _ _ hb1 rfl hz1]
    dsimp only
    rw [← hP2, buildSauce_live ⟨P2, B1, o⟩ a P.cells.length _ _ hb1 rfl hz2]
    dsimp only
    rw [← hP3, buildTopping_live ⟨P3, B1, o⟩ a P.cells.length _ _ hb1 rfl hz3]
    dsimp only
    rw [← hP4]
  · intro q hq
    rw [hB1]
    exact Heap.read_write_other _ _ _ _ hq
  · rw [hB1]
    exact Heap.length_write _ _ _
  · intro q hq
    show P4.read q = P.read q
    rw [hP4, hP3, hP2, hP1, Heap.read_write_other _ _ _ _ hq, Heap.read_write_other _ _ _ _ hq,
      Heap.read_write_other _ _ _ _ hq, Heap.read_alloc_other _ _ _ hq]
  · show P4.cells.length = P.cells.length + 1
    rw [hP4, hP3, hP2, hP1, Heap.length_write, Heap.length_write, Heap.length_write]
    simp [Heap.alloc]

theorem describe_live (w : World) (p : Nat) (z : Pizza) (hz : w.pizzas.read p = some z) :
    Pizza.describe (some p) w
      = .ok ((), { w with cout := w.cout ++ "Pizza with " ++ z.m_dough ++ " dough, "
          ++ z.m_sauce ++ " sauce and " ++ z.m_topping ++ " topping." ++ "\n" }) := by
  simp only [Pizza.describe, Exec.andThen, derefPizza, coutWrite, hz]

theorem pizzaOf_hawaiian (k : BuilderClass) (hk : k = .Hawaiian) :
    (⟨doughOf k, sauceOf k, toppingOf k⟩ : Pizza) = ⟨"cross", "mild", "Ham and Pineapple"⟩ := by
  subst hk; rfl

theorem pizzaOf_spicy (k : BuilderClass) (hk : k = .Spicy) :
    (⟨doughOf k, sauceOf k, toppingOf k⟩ : Pizza) = ⟨"pan baked", "hot", "pepperoni+salami"⟩ := by
  subst hk; rfl

/-! ## The claims -/

/-- C1: for each of the two builder variants, whatever the cook and the builder
held before, `setPizzaBuilder(V); constructPizza(); getPizza()` returns a
pointer to a live `Pizza` whose three members are exactly the constants of the
variant. -/
theorem C1_construct_get_yields_variant_pizza (c : Cook) (w : World) (a : Nat)
    (b : PizzaBuilder) (hb : w.builders.read a = some b) :
    ∃ (p : Nat) (w1 : World),
      ((c.setPizzaBuilder (some a)).constructPizza.andThen fun _ =>
        (c.setPizzaBuilder (some a)).getPizza) w = .ok (some p, w1)
      ∧ (b.cls = .Hawaiian →
          w1.pizzas.read p = some ⟨"cross", "mild", "Ham and Pineapple"⟩)
      ∧ (b.cls = .Spicy →
          w1.pizzas.read p = some ⟨"pan baked", "hot", "pepperoni+salami"⟩) := by
  obtain ⟨w1, hrun, hb1, -, -, hz, -, -, -⟩ :=
    constructPizza_live (c.setPizzaBuilder (some a)) w a b rfl hb
  refine ⟨w.pizzas.cells.length, w1, ?_, ?_, ?_⟩
  · unfold Exec.andThen
    rw [hrun]
    exact getPizza_live w1 a _ hb1
  · intro hk
    rw [hz, pizzaOf_hawaiian _ hk]
  · intro hk
    rw [hz, pizzaOf_spicy _ hk]

/-- Witness of C1 on the state of `main` after its two `new` expressions, with
the Hawaiian builder at address 0. -/
theorem C1_witness :
    ∃ (p : Nat) (w1 : World),
      (((Cook.mk none).setPizzaBuilder (some 0)).constructPizza.andThen fun _ =>
        ((Cook.mk none).setPizzaBuilder (some 0)).getPizza) worldAfterNew = .ok (some p, w1)
      ∧ (BuilderClass.Hawaiian = .Hawaiian →
          w1.pizzas.read p = some ⟨"cross", "mild", "Ham and Pineapple"⟩)
      ∧ (BuilderClass.Hawaiian = .Spicy →
          w1.pizzas.read p = some ⟨"pan baked", "hot", "pepperoni+salami"⟩) :=
  C1_construct_get_yields_variant_pizza (Cook.mk none) worldAfterNew 0 ⟨.Hawaiian, none⟩ rfl

/-- C2: end to end, constructing with a `HawaiianPizzaBuilder` and describing
the returned `Pizza` appends to `std::cout` exactly the line
"Pizza with cross dough, mild sauce and Ham and Pineapple topping.", and with a
`SpicyPizzaBuilder` exactly the line
"Pizza with pan baked dough, hot sauce and pepperoni+salami topping.", each
followed by the line end of `std::endl`. -/
theorem C2_end_to_end_describe (c : Cook) (w : World) (a : Nat) (b : PizzaBuilder)
    (hb : w.builders.read a = some b) :
    ∃ w1 : World,
      ((c.setPizzaBuilder (some a)).constructPizza.andThen fun _ =>
        (c.setPizzaBuilder (some a)).getPizza.andThen fun p =>
        Pizza.describe p) w = .ok ((), w1)
      ∧ (b.cls = .Hawaiian → w1.cout = w.cout
          ++ "Pizza with cross dough, mild sauce and Ham and Pineapple topping." ++ "\n")
      ∧ (b.cls = .Spicy → w1.cout = w.cout
          ++ "Pizza with pan baked dough, hot sauce and pepperoni+salami topping." ++ "\n") := by
  obtain ⟨w1, hrun, hb1, -, -, hz, -, -, hout⟩ :=
    constructPizza_live (c.setPizzaBuilder (some a)) w a b rfl hb
  have hd := describe_live w1 _ _ hz
  refine ⟨⟨w1.pizzas, w1.builders, w1.cout ++ "Pizza with " ++ doughOf b.cls ++ " dough, "
    ++ sauceOf b.cls ++ " sauce and " ++ toppingOf b.cls ++ " topping." ++ "\n"⟩, ?_, ?_, ?_⟩
  · unfold Exec.andThen
    rw [hrun]
    dsimp only
    rw [show (c.setPizzaBuilder (some a)).getPizza w1 = _ from getPizza_live w1 a _ hb1]
    dsimp only
    exact hd
  · intro hk
    simp only [hout, hk, doughOf, sauceOf, toppingOf, String.append_assoc]
    rfl
  · intro hk
    simp only [hout, hk, doughOf, sauceOf, toppingOf, String.append_assoc]
    rfl


/-- Witness of C2 on the state of `main` after its two `new` expressions, with
the Spicy builder at address 1. -/
theorem C2_witness :
    ∃ w1 : World,
      (((Cook.mk none).setPizzaBuilder (some 1)).constructPizza.andThen fun _ =>
        ((Cook.mk none).setPizzaBuilder (some 1)).getPizza.andThen fun p =>
        Pizza.describe p) worldAfterNew = .ok ((), w1)
      ∧ (BuilderClass.Spicy = .Hawaiian → w1.cout = worldAfterNew.cout
          ++ "Pizza with cross dough, mild sauce and Ham and Pineapple topping." ++ "\n")
      ∧ (BuilderClass.Spicy = .Spicy → w1.cout = worldAfterNew.cout
          ++ "Pizza with pan baked dough, hot sauce and pepperoni+salami topping." ++ "\n") :=
  C2_end_to_end_describe (Cook.mk none) worldAfterNew 1 ⟨.Spicy, none⟩ rfl

/-- C3: for every live `Pizza`, whatever strings its three members hold,
`describe()` appends to `std::cout` exactly "Pizza with ", the dough,
" dough, ", the sauce, " sauce and ", the topping, " topping." (in that order,
ended by the line end of `std::endl`), and changes nothing else: both heaps,
hence the three members of the `Pizza`, are as before. -/
theorem C3_describe_format_and_frame (w : World) (p : Nat) (z : Pizza)
    (hz : w.pizzas.read p = some z) :
    ∃ w1 : World, Pizza.describe (some p) w = .ok ((), w1)
      ∧ w1.cout = w.cout ++ ("Pizza with " ++ z.m_dough ++ " dough, " ++ z.m_sauce
          ++ " sauce and " ++ z.m_topping ++ " topping.") ++ "\n"
      ∧ w1.pizzas = w.pizzas
      ∧ w1.builders = w.builders
      ∧ w1.pizzas.read p = some z := by
  refine ⟨_, describe_live w p z hz, ?_, rfl, rfl, hz⟩
  simp only [String.append_assoc]

/-- Witness of C3 on a `Pizza` whose sauce is the empty string. -/
theorem C3_witness :
    ∃ w1 : World, Pizza.describe (some 0) worldWithPizza = .ok ((), w1)
      ∧ w1.cout = worldWithPizza.cout
          ++ ("Pizza with " ++ (Pizza.mk "thin" "" "olives").m_dough ++ " dough, "
          ++ (Pizza.mk "thin" "" "olives").m_sauce
          ++ " sauce and " ++ (Pizza.mk "thin" "" "olives").m_topping ++ " topping.") ++ "\n"
      ∧ w1.pizzas = worldWithPizza.pizzas
      ∧ w1.builders = worldWithPizza.builders
      ∧ w1.pizzas.read 0 = some (Pizza.mk "thin" "" "olives") :=
  C3_describe_format_and_frame worldWithPizza 0 (Pizza.mk "thin" "" "olives") rfl

/-- C4, counterexample: on the Hawaiian builder of `main`, on which
`createNewPizzaProduct` has not been called, `getPizza()` does not fail: it
returns the null `m_pizza` and leaves the state as it was; and `buildDough()`
ends in the dereference of that null pointer, not in an `InvalidState` error. -/
theorem C4_counterexample :
    PizzaBuilder.getPizza (some 0) worldAfterNew = .ok (none, worldAfterNew)
      ∧ PizzaBuilder.getPizza (some 0) worldAfterNew ≠ .error Fault.InvalidState
      ∧ PizzaBuilder.buildDough (some 0) worldAfterNew ≠ .error Fault.InvalidState := by
  refine ⟨rfl, ?_, ?_⟩
  · intro h
    have h2 : PizzaBuilder.getPizza (some 0) worldAfterNew = .ok (none, worldAfterNew) := rfl
    rw [h2] at h
    cases h
  · intro h
    have h2 : PizzaBuilder.buildDough (some 0) worldAfterNew = .error Fault.badDeref := rfl
    rw [h2] at h
    cases h

/-- C4, as amended: on a live builder of either variant whose `m_pizza` is null
(no `createNewPizzaProduct` yet), `buildDough`, `buildSauce` and `buildTopping`
dereference the null pointer and have no result (no `InvalidState` error, no
`Pizza` created or changed), while `getPizza` succeeds, returning the null
pointer and leaving the state unchanged. -/
theorem C4_unbound_builder_behaviour (w : World) (a : Nat) (b : PizzaBuilder)
    (hb : w.builders.read a = some b) (hp : b.m_pizza = none) :
    PizzaBuilder.buildDough (some a) w = .error Fault.badDeref
      ∧ PizzaBuilder.buildSauce (some a) w = .error Fault.badDeref
      ∧ PizzaBuilder.buildTopping (some a) w = .error Fault.badDeref
      ∧ PizzaBuilder.getPizza (some a) w = .ok (none, w) := by
  refine ⟨?_, ?_, ?_, ?_⟩
  · cases hc : b.cls <;>
      simp [PizzaBuilder.buildDough, HawaiianPizzaBuilder.buildDough,
        SpicyPizzaBuilder.buildDough, Exec.andThen, derefBuilder, Pizza.setDough, updatePizza,
        hb, hp, hc]
  · cases hc : b.cls <;>
      simp [PizzaBuilder.buildSauce, HawaiianPizzaBuilder.buildSauce,
        SpicyPizzaBuilder.buildSauce, Exec.andThen, derefBuilder, Pizza.setSauce, updatePizza,
        hb, hp, hc]
  · cases hc : b.cls <;>
      simp [PizzaBuilder.buildTopping, HawaiianPizzaBuilder.buildTopping,
        SpicyPizzaBuilder.buildTopping, Exec.andThen, derefBuilder, Pizza.setTopping,
        updatePizza, hb, hp, hc]
  · rw [getPizza_live w a b hb, hp]

/-- Witness of the amended C4 on the Spicy builder of `main`. -/
theorem C4_witness :
    PizzaBuilder.buildDough (some 1) worldAfterNew = .error Fault.badDeref
      ∧ PizzaBuilder.buildSauce (some 1) worldAfterNew = .error Fault.badDeref
      ∧ PizzaBuilder.buildTopping (some 1) worldAfterNew = .error Fault.badDeref
      ∧ PizzaBuilder.getPizza (some 1) worldAfterNew = .ok (none, worldAfterNew) :=
  C4_unbound_builder_behaviour worldAfterNew 1 ⟨.Spicy, none⟩ rfl rfl

/-- C5, counterexample: on a `Cook` whose builder was never set, in the state
of `main` after its two `new` expressions, `constructPizza()` and `getPizza()`
end in the dereference of the unset `m_pizzaBuilder`, not in an `InvalidState`
error. -/
theorem C5_counterexample :
    (Cook.mk none).constructPizza worldAfterNew = .error Fault.badDeref
      ∧ (Cook.mk none).getPizza worldAfterNew = .error Fault.badDeref
      ∧ (Cook.mk none).constructPizza worldAfterNew ≠ .error Fault.InvalidState
      ∧ (Cook.mk none).getPizza worldAfterNew ≠ .error Fault.InvalidState := by
  refine ⟨rfl, rfl, ?_, ?_⟩
  · intro h
    have h2 : (Cook.mk none).constructPizza worldAfterNew = .error Fault.badDeref := rfl
    rw [h2] at h
    cases h
  · intro h
    have h2 : (Cook.mk none).getPizza worldAfterNew = .error Fault.badDeref := rfl
    rw [h2] at h
    cases h

/-- C5, as amended: on a `Cook` whose `m_pizzaBuilder` designates no live
builder (null, as when `setPizzaBuilder` was never called, or dangling),
`constructPizza()` and `getPizza()` dereference that pointer and have no
result: no `InvalidState` error is raised and no state is produced. -/
theorem C5_unset_builder_behaviour (c : Cook) (w : World)
    (hc : ∀ a : Nat, c.m_pizzaBuilder = some a → w.builders.read a = none) :
    c.constructPizza w = .error Fault.badDeref
      ∧ c.getPizza w = .error Fault.badDeref := by
  obtain ⟨pb⟩ := c
  cases pb with
  | none =>
    exact ⟨rfl, rfl⟩
  | some a =>
    have hr : w.builders.read a = none := hc a rfl
    constructor
    · simp [Cook.constructPizza, PizzaBuilder.createNewPizzaProduct, Exec.andThen, newPizza,
        updateBuilder, Heap.alloc, hr]
    · simp [Cook.getPizza, PizzaBuilder.getPizza, Exec.andThen, derefBuilder, hr]

/-- Witness of the amended C5 on the `Cook` of `main` before its first
`setPizzaBuilder`. -/
theorem C5_witness :
    (Cook.mk none).constructPizza worldWithPizza = .error Fault.badDeref
      ∧ (Cook.mk none).getPizza worldWithPizza = .error Fault.badDeref :=
  C5_unset_builder_behaviour (Cook.mk none) worldWithPizza (fun _ h => by cases h)


/-- C6: for either variant, two `constructPizza()` calls in a row on the same
cook and builder, each followed by `getPizza()`, return two different
addresses; the second `Pizza` did not exist before the second call; both hold
the same three values; and the first `Pizza` still holds them after the second
construction. -/
theorem C6_successive_builds_equal_values_distinct_identity (c : Cook) (w : World) (a : Nat)
    (b : PizzaBuilder) (hc : c.m_pizzaBuilder = some a) (hb : w.builders.read a = some b) :
    ∃ (p1 p2 : Nat) (w1 w2 : World) (z : Pizza),
      c.constructPizza w = .ok ((), w1)
      ∧ c.getPizza w1 = .ok (some p1, w1)
      ∧ c.constructPizza w1 = .ok ((), w2)
      ∧ c.getPizza w2 = .ok (some p2, w2)
      ∧ p1 ≠ p2
      ∧ w1.pizzas.read p2 = none
      ∧ w1.pizzas.read p1 = some z
      ∧ w2.pizzas.read p2 = some z
      ∧ w2.pizzas.read p1 = some z := by
  obtain ⟨w1, hrun1, hb1, -, -, hz1, -, hlen1, -⟩ := constructPizza_live c w a b hc hb
  obtain ⟨w2, hrun2, hb2, -, -, hz2, hfr2, -, -⟩ := constructPizza_live c w1 a _ hc hb1
  have hne : w.pizzas.cells.length ≠ w1.pizzas.cells.length := by omega
  refine ⟨w.pizzas.cells.length, w1.pizzas.cells.length, w1, w2, _, hrun1, ?_, hrun2, ?_, hne,
    Heap.read_length _, hz1, hz2, ?_⟩
  · unfold Cook.getPizza
    rw [hc]
    exact getPizza_live w1 a _ hb1
  · unfold Cook.getPizza
    rw [hc]
    exact getPizza_live w2 a _ hb2
  · rw [hfr2 _ hne, hz1]

/-- Witness of C6 on the Hawaiian builder of `main`. -/
theorem C6_witness :
    ∃ (p1 p2 : Nat) (w1 w2 : World) (z : Pizza),
      (Cook.mk (some 0)).constructPizza worldAfterNew = .ok ((), w1)
      ∧ (Cook.mk (some 0)).getPizza w1 = .ok (some p1, w1)
      ∧ (Cook.mk (some 0)).constructPizza w1 = .ok ((), w2)
      ∧ (Cook.mk (some 0)).getPizza w2 = .ok (some p2, w2)
      ∧ p1 ≠ p2
      ∧ w1.pizzas.read p2 = none
      ∧ w1.pizzas.read p1 = some z
      ∧ w2.pizzas.read p2 = some z
      ∧ w2.pizzas.read p1 = some z :=
  C6_successive_builds_equal_values_distinct_identity (Cook.mk (some 0)) worldAfterNew 0
    ⟨.Hawaiian, none⟩ rfl rfl

/-- C7: for all live builders A and B (of the same or of different variants,
the same object or not), after `setPizzaBuilder(A); constructPizza();
p1 := getPizza(); setPizzaBuilder(B); constructPizza(); p2 := getPizza()` the
`Pizza` at `p2` holds exactly the three constants of B, `p1` is another object,
and the `Pizza` at `p1` still holds exactly the three constants of A. -/
theorem C7_builder_swap_leaks_nothing (c : Cook) (w : World) (a1 a2 : Nat)
    (bA bB : PizzaBuilder) (hA : w.builders.read a1 = some bA)
    (hB : w.builders.read a2 = some bB) :
    ∃ (p1 p2 : Nat) (w1 w2 : World),
      (c.setPizzaBuilder (some a1)).constructPizza w = .ok ((), w1)
      ∧ (c.setPizzaBuilder (some a1)).getPizza w1 = .ok (some p1, w1)
      ∧ ((c.setPizzaBuilder (some a1)).setPizzaBuilder (some a2)).constructPizza w1
          = .ok ((), w2)
      ∧ ((c.setPizzaBuilder (some a1)).setPizzaBuilder (some a2)).getPizza w2
          = .ok (some p2, w2)
      ∧ p1 ≠ p2
      ∧ (bB.cls = .Hawaiian →
          w2.pizzas.read p2 = some ⟨"cross", "mild", "Ham and Pineapple"⟩)
      ∧ (bB.cls = .Spicy →
          w2.pizzas.read p2 = some ⟨"pan baked", "hot", "pepperoni+salami"⟩)
      ∧ (bA.cls = .Hawaiian →
          w2.pizzas.read p1 = some ⟨"cross", "mild", "Ham and Pineapple"⟩)
      ∧ (bA.cls = .Spicy →
          w2.pizzas.read p1 = some ⟨"pan baked", "hot", "pepperoni+salami"⟩) := by
  obtain ⟨w1, hrun1, hb1, hfrB1, -, hz1, -, hlen1, -⟩ :=
    constructPizza_live (c.setPizzaBuilder (some a1)) w a1 bA rfl hA
  have hB1 : ∃ b1 : PizzaBuilder, w1.builders.read a2 = some b1 ∧ b1.cls = bB.cls := by
    by_cases h : a2 = a1
    · subst h
      rw [hA] at hB
      cases hB
      exact ⟨_, hb1, rfl⟩
    · exact ⟨bB, by rw [hfrB1 a2 h, hB], rfl⟩
  obtain ⟨b1, hb1B, hcls⟩ := hB1
  obtain ⟨w2, hrun2, hb2, -, -, hz2, hfr2, -, -⟩ :=
    constructPizza_live ((c.setPizzaBuilder (some a1)).setPizzaBuilder (some a2)) w1 a2 b1 rfl
      hb1B
  have hne : w.pizzas.cells.length ≠ w1.pizzas.cells.length := by omega
  rw [hcls] at hz2
  have hz1k : w2.pizzas.read w.pizzas.cells.length
      = some ⟨doughOf bA.cls, sauceOf bA.cls, toppingOf bA.cls⟩ := by
    rw [hfr2 _ hne, hz1]
  refine ⟨w.pizzas.cells.length, w1.pizzas.cells.length, w1, w2, hrun1,
    getPizza_live w1 a1 _ hb1, hrun2, getPizza_live w2 a2 _ hb2, hne, ?_, ?_, ?_, ?_⟩
  · intro hk
    rw [hz2, pizzaOf_hawaiian _ hk]
  · intro hk
    rw [hz2, pizzaOf_spicy _ hk]
  · intro hk
    rw [hz1k, pizzaOf_hawaiian _ hk]
  · intro hk
    rw [hz1k, pizzaOf_spicy _ hk]

/-- Witness of C7 on the two builders of `main`: Hawaiian first, then Spicy. -/
theorem C7_witness :
    ∃ (p1 p2 : Nat) (w1 w2 : World),
      ((Cook.mk none).setPizzaBuilder (some 0)).constructPizza worldAfterNew = .ok ((), w1)
      ∧ ((Cook.mk none).setPizzaBuilder (some 0)).getPizza w1 = .ok (some p1, w1)
      ∧ (((Cook.mk none).setPizzaBuilder (some 0)).setPizzaBuilder (some 1)).constructPizza w1
          = .ok ((), w2)
      ∧ (((Cook.mk none).setPizzaBuilder (some 0)).setPizzaBuilder (some 1)).getPizza w2
          = .ok (some p2, w2)
      ∧ p1 ≠ p2
      ∧ (BuilderClass.Spicy = .Hawaiian →
          w2.pizzas.read p2 = some ⟨"cross", "mild", "Ham and Pineapple"⟩)
      ∧ (BuilderClass.Spicy = .Spicy →
          w2.pizzas.read p2 = some ⟨"pan baked", "hot", "pepperoni+salami"⟩)
      ∧ (BuilderClass.Hawaiian = .Hawaiian →
          w2.pizzas.read p1 = some ⟨"cross", "mild", "Ham and Pineapple"⟩)
      ∧ (BuilderClass.Hawaiian = .Spicy →
          w2.pizzas.read p1 = some ⟨"pan baked", "hot", "pepperoni+salami"⟩) :=
  C7_builder_swap_leaks_nothing (Cook.mk none) worldAfterNew 0 1 ⟨.Hawaiian, none⟩
    ⟨.Spicy, none⟩ rfl rfl


/-- C8, counterexample: in `main`, once the cook has constructed with the
Hawaiian builder, a further `setPizzaBuilder` with that same builder does not
reset anything: `getPizza()` right after it, with no `constructPizza()` since,
returns the earlier `Pizza` at address 0, alive and fully built. -/
theorem C8_counterexample :
    ((Cook.mk none).setPizzaBuilder (some 0)).constructPizza worldAfterNew
        = .ok ((), worldAfterHawaiian)
      ∧ (((Cook.mk none).setPizzaBuilder (some 0)).setPizzaBuilder (some 0)).getPizza
          worldAfterHawaiian = .ok (some 0, worldAfterHawaiian)
      ∧ worldAfterHawaiian.pizzas.read 0 = some ⟨"cross", "mild", "Ham and Pineapple"⟩ :=
  ⟨rfl, rfl, rfl⟩

/-- C8, as amended: the cook keeps no product state of its own.  For every
cook and every live builder `b`, `getPizza()` right after `setPizzaBuilder(b)`
succeeds with whatever `b` has bound at that moment (null when nothing was ever
created on `b`, the `Pizza` of the latest construction otherwise) and changes
nothing; and `constructPizza()` always leads to "product ready": `getPizza()`
then returns a pointer to a live `Pizza`. -/
theorem C8_cook_readiness_is_builder_binding (c : Cook) (w : World) (a : Nat)
    (b : PizzaBuilder) (hb : w.builders.read a = some b) :
    (c.setPizzaBuilder (some a)).getPizza w = .ok (b.m_pizza, w)
      ∧ ∃ (w1 : World) (p : Nat) (z : Pizza),
          (c.setPizzaBuilder (some a)).constructPizza w = .ok ((), w1)
          ∧ (c.setPizzaBuilder (some a)).getPizza w1 = .ok (some p, w1)
          ∧ w1.pizzas.read p = some z := by
  obtain ⟨w1, hrun, hb1, -, -, hz, -, -, -⟩ :=
    constructPizza_live (c.setPizzaBuilder (some a)) w a b rfl hb
  exact ⟨getPizza_live w a b hb, w1, _, _, hrun, getPizza_live w1 a _ hb1, hz⟩

/-- Witness of the amended C8 on the Hawaiian builder of `main` after its first
construction. -/
theorem C8_witness :
    ((Cook.mk (some 1)).setPizzaBuilder (some 0)).getPizza worldAfterHawaiian
        = .ok ((PizzaBuilder.mk .Hawaiian (some 0)).m_pizza, worldAfterHawaiian)
      ∧ ∃ (w1 : World) (p : Nat) (z : Pizza),
          ((Cook.mk (some 1)).setPizzaBuilder (some 0)).constructPizza worldAfterHawaiian
            = .ok ((), w1)
          ∧ ((Cook.mk (some 1)).setPizzaBuilder (some 0)).getPizza w1 = .ok (some p, w1)
          ∧ w1.pizzas.read p = some z :=
  C8_cook_readiness_is_builder_binding (Cook.mk (some 1)) worldAfterHawaiian 0
    ⟨.Hawaiian, some 0⟩ rfl

/-- C9: for every live builder with a `Pizza` bound, `getPizza()` returns the
bound pointer and hands back the very state it was given, so the builder still
holds its reference and the `Pizza` its members; hence any sequence of
`getPizza()` calls, made on the builder or through a cook that has this
builder set, returns that same pointer every time. -/
theorem C9_getPizza_keeps_binding (w : World) (a p : Nat) (b : PizzaBuilder) (z : Pizza)
    (hb : w.builders.read a = some b) (hp : b.m_pizza = some p)
    (hz : w.pizzas.read p = some z) :
    PizzaBuilder.getPizza (some a) w = .ok (some p, w)
      ∧ (Cook.mk (some a)).getPizza w = .ok (some p, w)
      ∧ ∀ calls : List (Exec Ptr),
          (∀ x ∈ calls,
            x = PizzaBuilder.getPizza (some a) ∨ x = (Cook.mk (some a)).getPizza) →
          ∃ w1 : World,
            Exec.runAll calls w = .ok (List.replicate calls.length (some p), w1)
            ∧ w1 = w
            ∧ w1.builders.read a = some b
            ∧ w1.pizzas.read p = some z := by
  have h1 : PizzaBuilder.getPizza (some a) w = .ok (some p, w) := by
    rw [getPizza_live w a b hb, hp]
  refine ⟨h1, h1, ?_⟩
  intro calls
  induction calls with
  | nil =>
    intro _
    exact ⟨w, rfl, rfl, hb, hz⟩
  | cons x xs ih =>
    intro hall
    obtain ⟨w1, hrest, hw, -, -⟩ := ih (fun y hy => hall y (List.mem_cons_of_mem _ hy))
    subst hw
    have hx : x w1 = .ok (some p, w1) := by
      rcases hall x (List.mem_cons_self _ _) with h | h <;> rw [h] <;> exact h1
    refine ⟨w1, ?_, rfl, hb, hz⟩
    simp only [Exec.runAll, Exec.andThen, hx, hrest, List.length_cons, List.replicate_succ]

/-- Witness of C9 on the Hawaiian builder of `main` after its first
construction. -/
theorem C9_witness :
    PizzaBuilder.getPizza (some 0) worldAfterHawaiian = .ok (some 0, worldAfterHawaiian)
      ∧ (Cook.mk (some 0)).getPizza worldAfterHawaiian = .ok (some 0, worldAfterHawaiian)
      ∧ ∀ calls : List (Exec Ptr),
          (∀ x ∈ calls,
            x = PizzaBuilder.getPizza (some 0) ∨ x = (Cook.mk (some 0)).getPizza) →
          ∃ w1 : World,
            Exec.runAll calls worldAfterHawaiian
              = .ok (List.replicate calls.length (some 0), w1)
            ∧ w1 = worldAfterHawaiian
            ∧ w1.builders.read 0 = some ⟨.Hawaiian, some 0⟩
            ∧ w1.pizzas.read 0 = some ⟨"cross", "mild", "Ham and Pineapple"⟩ :=
  C9_getPizza_keeps_binding worldAfterHawaiian 0 0 ⟨.Hawaiian, some 0⟩
    ⟨"cross", "mild", "Ham and Pineapple"⟩ rfl rfl rfl

/-- C10: for either variant and whatever the bound `Pizza` holds, `buildDough`
sets its dough, `buildSauce` its sauce and `buildTopping` its topping to the
constant of the variant; each leaves the other two members of that `Pizza`,
every other `Pizza`, every builder (so the bound reference too) and the output
unchanged. -/
theorem C10_build_step_sets_one_member (w : World) (a p : Nat) (b : PizzaBuilder)
    (z : Pizza) (hb : w.builders.read a = some b) (hp : b.m_pizza = some p)
    (hz : w.pizzas.read p = some z) :
    (∃ w1 : World, PizzaBuilder.buildDough (some a) w = .ok ((), w1)
        ∧ (b.cls = .Hawaiian → w1.pizzas.read p = some ⟨"cross", z.m_sauce, z.m_topping⟩)
        ∧ (b.cls = .Spicy → w1.pizzas.read p = some ⟨"pan baked", z.m_sauce, z.m_topping⟩)
        ∧ (∀ q : Nat, q ≠ p → w1.pizzas.read q = w.pizzas.read q)
        ∧ w1.builders = w.builders ∧ w1.cout = w.cout)
      ∧ (∃ w1 : World, PizzaBuilder.buildSauce (some a) w = .ok ((), w1)
        ∧ (b.cls = .Hawaiian → w1.pizzas.read p = some ⟨z.m_dough, "mild", z.m_topping⟩)
        ∧ (b.cls = .Spicy → w1.pizzas.read p = some ⟨z.m_dough, "hot", z.m_topping⟩)
        ∧ (∀ q : Nat, q ≠ p → w1.pizzas.read q = w.pizzas.read q)
        ∧ w1.builders = w.builders ∧ w1.cout = w.cout)
      ∧ (∃ w1 : World, PizzaBuilder.buildTopping (some a) w = .ok ((), w1)
        ∧ (b.cls = .Hawaiian →
            w1.pizzas.read p = some ⟨z.m_dough, z.m_sauce, "Ham and Pineapple"⟩)
        ∧ (b.cls = .Spicy →
            w1.pizzas.read p = some ⟨z.m_dough, z.m_sauce, "pepperoni+salami"⟩)
        ∧ (∀ q : Nat, q ≠ p → w1.pizzas.read q = w.pizzas.read q)
        ∧ w1.builders = w.builders ∧ w1.cout = w.cout) := by
  refine ⟨⟨_, buildDough_live w a p b z hb hp hz, ?_, ?_, ?_, rfl, rfl⟩,
    ⟨_, buildSauce_live w a p b z hb hp hz, ?_, ?_, ?_, rfl, rfl⟩,
    ⟨_, buildTopping_live w a p b z hb hp hz, ?_, ?_, ?_, rfl, rfl⟩⟩
  · intro hk
    rw [hk]
    exact Heap.read_write_same _ _ _ _ hz
  · intro hk
    rw [hk]
    exact Heap.read_write_same _ _ _ _ hz
  · intro q hq
    exact Heap.read_write_other _ _ _ _ hq
  · intro hk
    rw [hk]
    exact Heap.read_write_same _ _ _ _ hz
  · intro hk
    rw [hk]
    exact Heap.read_write_same _ _ _ _ hz
  · intro q hq
    exact Heap.read_write_other _ _ _ _ hq
  · intro hk
    rw [hk]
    exact Heap.read_write_same _ _ _ _ hz
  · intro hk
    rw [hk]
    exact Heap.read_write_same _ _ _ _ hz
  · intro q hq
    exact Heap.read_write_other _ _ _ _ hq


/-- Witness of C10 on a Spicy builder whose bound `Pizza` holds other text. -/
theorem C10_witness :
    (∃ w1 : World, PizzaBuilder.buildDough (some 1) worldWithPizza = .ok ((), w1)
        ∧ (BuilderClass.Spicy = .Hawaiian → w1.pizzas.read 0
            = some ⟨"cross", (Pizza.mk "thin" "" "olives").m_sauce,
                (Pizza.mk "thin" "" "olives").m_topping⟩)
        ∧ (BuilderClass.Spicy = .Spicy → w1.pizzas.read 0
            = some ⟨"pan baked", (Pizza.mk "thin" "" "olives").m_sauce,
                (Pizza.mk "thin" "" "olives").m_topping⟩)
        ∧ (∀ q : Nat, q ≠ 0 → w1.pizzas.read q = worldWithPizza.pizzas.read q)
        ∧ w1.builders = worldWithPizza.builders ∧ w1.cout = worldWithPizza.cout)
      ∧ (∃ w1 : World, PizzaBuilder.buildSauce (some 1) worldWithPizza = .ok ((), w1)
        ∧ (BuilderClass.Spicy = .Hawaiian → w1.pizzas.read 0
            = some ⟨(Pizza.mk "thin" "" "olives").m_dough, "mild",
                (Pizza.mk "thin" "" "olives").m_topping⟩)
        ∧ (BuilderClass.Spicy = .Spicy → w1.pizzas.read 0
            = some ⟨(Pizza.mk "thin" "" "olives").m_dough, "hot",
                (Pizza.mk "thin" "" "olives").m_topping⟩)
        ∧ (∀ q : Nat, q ≠ 0 → w1.pizzas.read q = worldWithPizza.pizzas.read q)
        ∧ w1.builders = worldWithPizza.builders ∧ w1.cout = worldWithPizza.cout)
      ∧ (∃ w1 : World, PizzaBuilder.buildTopping (some 1) worldWithPizza = .ok ((), w1)
        ∧ (BuilderClass.Spicy = .Hawaiian → w1.pizzas.read 0
            = some ⟨(Pizza.mk "thin" "" "olives").m_dough,
                (Pizza.mk "thin" "" "olives").m_sauce, "Ham and Pineapple"⟩)
        ∧ (BuilderClass.Spicy = .Spicy → w1.pizzas.read 0
            = some ⟨(Pizza.mk "thin" "" "olives").m_dough,
                (Pizza.mk "thin" "" "olives").m_sauce, "pepperoni+salami"⟩)
        ∧ (∀ q : Nat, q ≠ 0 → w1.pizzas.read q = worldWithPizza.pizzas.read q)
        ∧ w1.builders = worldWithPizza.builders ∧ w1.cout = worldWithPizza.cout) :=
  C10_build_step_sets_one_member worldWithPizza 1 0 ⟨.Spicy, some 0⟩ ⟨"thin", "", "olives"⟩
    rfl rfl rfl


/-! ## Build steps in any order, and `createNewPizzaProduct` -/

/-- C12: on every live builder, bound or not, `createNewPizzaProduct()`
succeeds; afterwards the builder has bound a `Pizza` at an address that held no
live object before, whose dough, sauce and topping are empty strings; the
builder keeps its dynamic type; and every `Pizza` that was alive before, the
previously bound one included, is unchanged and no longer the bound one. -/
theorem C12_createNewPizzaProduct_binds_fresh_empty_pizza (w : World) (a : Nat)
    (b : PizzaBuilder) (hb : w.builders.read a = some b) :
    ∃ (p : Nat) (w1 : World),
      PizzaBuilder.createNewPizzaProduct (some a) w = .ok ((), w1)
      ∧ w1.builders.read a = some ⟨b.cls, some p⟩
      ∧ w.pizzas.read p = none
      ∧ w1.pizzas.read p = some ⟨"", "", ""⟩
      ∧ (∀ (q : Nat) (z : Pizza), w.pizzas.read q = some z →
          w1.pizzas.read q = some z ∧ q ≠ p)
      ∧ (∀ q : Nat, q ≠ a → w1.builders.read q = w.builders.read q)
      ∧ w1.cout = w.cout := by
  refine ⟨w.pizzas.cells.length, _, createNewPizzaProduct_live w a b hb,
    Heap.read_write_same _ _ _ _ hb, Heap.read_length _, Heap.read_alloc_new _ _, ?_, ?_, rfl⟩
  · intro q z hq
    have hlt := Heap.read_lt _ q z hq
    have hne : q ≠ w.pizzas.cells.length := by omega
    refine ⟨?_, hne⟩
    show Heap.read _ q = _
    rw [Heap.read_alloc_other _ _ _ hne, hq]
  · intro q hq
    exact Heap.read_write_other _ _ _ _ hq

/-- Witness of C12 on a builder that already has a `Pizza` bound. -/
theorem C12_witness :
    ∃ (p : Nat) (w1 : World),
      PizzaBuilder.createNewPizzaProduct (some 0) worldAfterHawaiian = .ok ((), w1)
      ∧ w1.builders.read 0 = some ⟨(PizzaBuilder.mk .Hawaiian (some 0)).cls, some p⟩
      ∧ worldAfterHawaiian.pizzas.read p = none
      ∧ w1.pizzas.read p = some ⟨"", "", ""⟩
      ∧ (∀ (q : Nat) (z : Pizza), worldAfterHawaiian.pizzas.read q = some z →
          w1.pizzas.read q = some z ∧ q ≠ p)
      ∧ (∀ q : Nat, q ≠ 0 → w1.builders.read q = worldAfterHawaiian.builders.read q)
      ∧ w1.cout = worldAfterHawaiian.cout :=
  C12_createNewPizzaProduct_binds_fresh_empty_pizza worldAfterHawaiian 0 ⟨.Hawaiian, some 0⟩ rfl

/-! ## Decorator, Observer, Singleton -/

theorem describe_wrapAll (xs : List Wrapper) (b : Burger) :
    (wrapAll xs b).describe = b.describe ++ concatAll (xs.map Wrapper.suffix) := by
  induction xs generalizing b with
  | nil => simp [wrapAll, concatAll]
  | cons x xs ih =>
    rw [wrapAll, ih]
    cases x <;>
      simp [Wrapper.wrap, Burger.describe, Wrapper.suffix, concatAll, String.append_assoc]

theorem applyTransformations_eq (xs : List Wrapper) (s : String) :
    applyTransformations xs s = s ++ concatAll (xs.map Wrapper.suffix) := by
  induction xs generalizing s with
  | nil => simp [applyTransformations, concatAll]
  | cons x xs ih =>
    rw [applyTransformations, ih]
    simp [concatAll, String.append_assoc]

/-- C14: describing a decorator equals the description of the wrapped burger
followed by the decorator's own text, for every burger; hence a `BeefBurger`
wrapped in any list of `Bacon`/`Cheese` decorators describes itself as the
list of transformations applied, innermost first, to "I am a beef burger",
that is, as this text followed by the suffixes in wrapping order; and
`Cheese(Bacon(BeefBurger))` gives
"I am a beef burger, with added bacon, with added cheese". -/
theorem C14_decorator_chain_is_transformation_list :
    (∀ b : Burger, (Burger.Bacon b).describe = b.describe ++ ", with added bacon")
      ∧ (∀ b : Burger, (Burger.Cheese b).describe = b.describe ++ ", with added cheese")
      ∧ (∀ xs : List Wrapper, (wrapAll xs .BeefBurger).describe
          = applyTransformations xs "I am a beef burger")
      ∧ (∀ xs : List Wrapper, (wrapAll xs .BeefBurger).describe
          = "I am a beef burger" ++ concatAll (xs.map Wrapper.suffix))
      ∧ (Burger.Cheese (.Bacon .BeefBurger)).describe
          = "I am a beef burger, with added bacon, with added cheese" := by
  refine ⟨fun b => ?_, fun b => ?_, fun xs => ?_, fun xs => ?_, ?_⟩
  · rfl
  · rfl
  · rw [describe_wrapAll, applyTransformations_eq]
    rfl
  · rw [describe_wrapAll]
    rfl
  · decide


theorem notifyEach_recordUpdate (os log : List Ptr) :
    notifyEach recordUpdate os log = .ok ((), log ++ os) := by
  induction os generalizing log with
  | nil => simp [notifyEach]
  | cons x xs ih => simp [notifyEach, recordUpdate, ih]

theorem updateData_recordUpdate (db : Database) (log : List Ptr) :
    db.updateData recordUpdate log = .ok (db, log ++ db.observers) := by
  simp [Database.updateData, notifyEach_recordUpdate]

theorem updateData_keeps_database {σ : Type} (db db1 : Database)
    (update : Ptr → σ → Except Fault (Unit × σ)) (s s1 : σ)
    (h : db.updateData update s = .ok (db1, s1)) : db1 = db := by
  unfold Database.updateData at h
  split at h
  · cases h
  · cases h
    rfl

theorem notifyEach_interestedParty (os : List Ptr) (w : World)
    (hos : ∀ x ∈ os, x ≠ none) :
    notifyEach InterestedParty.update os w
      = .ok ((), ⟨w.pizzas, w.builders,
          w.cout ++ concatAll (os.map fun _ => "Received notification\n")⟩) := by
  induction os generalizing w with
  | nil => simp [notifyEach, concatAll]
  | cons x xs ih =>
    have hx : x ≠ none := hos x (List.mem_cons_self _ _)
    obtain ⟨a, rfl⟩ := Option.ne_none_iff_exists'.mp hx
    have hstep : InterestedParty.update (some a) w
        = .ok ((), ⟨w.pizzas, w.builders, w.cout ++ "Received notification\n"⟩) := by
      simp only [InterestedParty.update, Exec.andThen, coutWrite, String.append_assoc]
      rfl
    rw [notifyEach, hstep]
    dsimp only
    rw [ih _ (fun y hy => hos y (List.mem_cons_of_mem _ hy))]
    simp [concatAll, String.append_assoc]

/-- C15: after `registerListener(o)`, `updateData()` calls `update()` on every
registered observer, `o` included (it is the last one), once per registration
and in registration order, and it leaves the list of observers as it was, so
every later `updateData()` does the same again.  The calls are observed
through an observer that logs the pointer it is called through; for the
observers of the source, `InterestedParty`, each call prints one line
"Received notification". -/
theorem C15_registered_observers_are_notified (db : Database) (o : Ptr) (log : List Ptr) :
    ∃ log1 : List Ptr,
      (db.registerListener o).updateData recordUpdate log
          = .ok (db.registerListener o, log1)
      ∧ log1 = log ++ (db.observers ++ [o])
      ∧ (∀ x : Ptr, log1.count x = log.count x + (db.registerListener o).observers.count x)
      ∧ (db.registerListener o).observers.count o = db.observers.count o + 1
      ∧ (db.registerListener o).updateData recordUpdate log1
          = .ok (db.registerListener o, log1 ++ (db.observers ++ [o]))
      ∧ (∀ (σ : Type) (update : Ptr → σ → Except Fault (Unit × σ)) (s s1 : σ)
          (db1 : Database),
          (db.registerListener o).updateData update s = .ok (db1, s1) →
            db1 = db.registerListener o)
      ∧ (∀ w : World, (∀ x ∈ (db.registerListener o).observers, x ≠ none) →
          ∃ w1 : World,
            (db.registerListener o).updateData InterestedParty.update w
              = .ok (db.registerListener o, w1)
            ∧ w1.cout = w.cout ++ concatAll
                ((db.registerListener o).observers.map fun _ => "Received notification\n")
            ∧ w1.pizzas = w.pizzas ∧ w1.builders = w.builders) := by
  refine ⟨log ++ (db.observers ++ [o]), updateData_recordUpdate _ _, rfl, ?_, ?_,
    updateData_recordUpdate _ _, ?_, ?_⟩
  · intro x
    simp [Database.registerListener, List.count_append]
  · simp [Database.registerListener, List.count_append]
  · intro σ update s s1 db1 h
    exact updateData_keeps_database _ _ update s s1 h
  · intro w hw
    refine ⟨⟨w.pizzas, w.builders, w.cout ++ concatAll
      ((db.registerListener o).observers.map fun _ => "Received notification\n")⟩,
      ?_, rfl, rfl, rfl⟩
    unfold Database.updateData
    rw [notifyEach_interestedParty _ w hw]

theorem eraseRemove_eq_filter (os : List Ptr) (o : Ptr) :
    eraseRemove os o = os.filter (fun x => decide (x ≠ o)) := by
  induction os with
  | nil => rfl
  | cons x xs ih =>
    by_cases h : x = o
    · simp [eraseRemove, h, ih]
    · simp [eraseRemove, h, ih]

theorem eraseRemove_not_mem (os : List Ptr) (o : Ptr) : o ∉ eraseRemove os o := by
  rw [eraseRemove_eq_filter]
  simp [List.mem_filter]

theorem eraseRemove_of_not_mem (os : List Ptr) (o : Ptr) (h : o ∉ os) :
    eraseRemove os o = os := by
  rw [eraseRemove_eq_filter, List.filter_eq_self]
  intro x hx
  have : x ≠ o := fun e => h (e ▸ hx)
  simpa using this

theorem eraseRemove_append_self (os : List Ptr) (o : Ptr) :
    eraseRemove (os ++ [o]) o = eraseRemove os o := by
  simp [eraseRemove_eq_filter, List.filter_append]

/-- C16: `unregisterListener(o)` removes every occurrence of `o` and keeps the
other observers, each as often as before and in their relative order; it
changes nothing when `o` is not registered; doing it twice is the same as doing
it once; after it `updateData()` makes no call on `o`; and undoing a
`registerListener(o)` with it gives back the original list whenever `o` was not
registered before. -/
theorem C16_unregister_removes_all_occurrences (db : Database) (o : Ptr) :
    o ∉ (db.unregisterListener o).observers
      ∧ (db.unregisterListener o).observers = db.observers.filter (fun x => decide (x ≠ o))
      ∧ (db.unregisterListener o).observers.Sublist db.observers
      ∧ (∀ x : Ptr, x ≠ o →
          (db.unregisterListener o).observers.count x = db.observers.count x)
      ∧ (o ∉ db.observers → db.unregisterListener o = db)
      ∧ (db.unregisterListener o).unregisterListener o = db.unregisterListener o
      ∧ (∀ log : List Ptr, ∃ log1 : List Ptr,
          (db.unregisterListener o).updateData recordUpdate log
              = .ok (db.unregisterListener o, log1)
          ∧ log1.count o = log.count o)
      ∧ (o ∉ db.observers → (db.registerListener o).unregisterListener o = db) := by
  refine ⟨eraseRemove_not_mem _ _, eraseRemove_eq_filter _ _, ?_, ?_, ?_, ?_, ?_, ?_⟩
  · show (eraseRemove db.observers o).Sublist db.observers
    rw [eraseRemove_eq_filter]
    exact List.filter_sublist _
  · intro x hx
    show (eraseRemove db.observers o).count x = db.observers.count x
    rw [eraseRemove_eq_filter, List.count_filter]
    simpa using hx
  · intro h
    show Database.mk (eraseRemove db.observers o) = db
    rw [eraseRemove_of_not_mem _ _ h]
  · show Database.mk (eraseRemove (eraseRemove db.observers o) o)
      = Database.mk (eraseRemove db.observers o)
    rw [eraseRemove_of_not_mem _ _ (eraseRemove_not_mem _ _)]
  · intro log
    refine ⟨_, updateData_recordUpdate _ _, ?_⟩
    rw [List.count_append]
    have h0 : (db.unregisterListener o).observers.count o = 0 :=
      List.count_eq_zero.mpr (eraseRemove_not_mem _ _)
    omega
  · intro h
    show Database.mk (eraseRemove (db.observers ++ [o]) o) = db
    rw [eraseRemove_append_self, eraseRemove_of_not_mem _ _ h]

theorem getInstanceTimes_bound (n : Nat) (s : SingletonState) (a : Nat)
    (h : s.instancePtr = some a) :
    Singleton.getInstanceTimes n s = (List.replicate n (some a), s) := by
  induction n with
  | zero => rfl
  | succ n ih =>
    have h1 : Singleton.getInstance s = (some a, s) := by
      simp [Singleton.getInstance, h]
    simp [Singleton.getInstanceTimes, h1, ih, List.replicate_succ]

/-- C17: in every sequence of `getInstance()` calls from program start, every
call returns the same pointer, the one to the object the first call created,
and at most one `Singleton` object exists afterwards (exactly one once a call
was made); and in any state at all, a call right after another returns the same
pointer and creates nothing. -/
theorem C17_single_instance :
    (∀ n : Nat, (Singleton.getInstanceTimes n SingletonState.start).1
        = List.replicate n (some 0))
      ∧ (∀ n : Nat, (Singleton.getInstanceTimes n SingletonState.start).2.objects.cells.length
          = if n = 0 then 0 else 1)
      ∧ (Singleton.getInstance SingletonState.start).2.objects.read 0 = some ()
      ∧ (∀ s : SingletonState,
          Singleton.getInstance (Singleton.getInstance s).2
            = ((Singleton.getInstance s).1, (Singleton.getInstance s).2)) := by
  have hone : Singleton.getInstance SingletonState.start
      = (some 0, ⟨some 0, ⟨[some ()]⟩⟩) := rfl
  have hall : ∀ n : Nat, Singleton.getInstanceTimes (n + 1) SingletonState.start
      = (List.replicate (n + 1) (some 0), ⟨some 0, ⟨[some ()]⟩⟩) := by
    intro n
    simp [Singleton.getInstanceTimes, hone,
      getInstanceTimes_bound n ⟨some 0, ⟨[some ()]⟩⟩ 0 rfl, List.replicate_succ]
  refine ⟨?_, ?_, rfl, ?_⟩
  · intro n
    cases n with
    | zero => rfl
    | succ n => rw [hall]
  · intro n
    cases n with
    | zero => rfl
    | succ n => rw [hall]; simp
  · intro s
    obtain ⟨p, objs⟩ := s
    cases p with
    | none => rfl
    | some a => rfl


/-! ## `main` -/

theorem builderBlock_initialWorld :
    builderBlock initialWorld = .ok (some 0,
      ⟨⟨[none, none]⟩, ⟨[none, none]⟩,
        "Pizza with cross dough, mild sauce and Ham and Pineapple topping.\nPizza with pan baked dough, hot sauce and pepperoni+salami topping.\n"⟩) := by
  rfl

/-- What the four blocks after the first `return 0;` would print if they were
run from the start state: none of them is silent. -/
theorem later_blocks_output :
    observerBlock initialWorld
        = .ok (some 0, ⟨⟨[]⟩, ⟨[]⟩, "Received notification\n"⟩)
      ∧ decoratorBlock initialWorld = .ok (some 0,
          ⟨⟨[]⟩, ⟨[]⟩, "I am a beef burger, with added bacon, with added cheese\n"⟩)
      ∧ strategyBlock initialWorld = .error Fault.badDeref
      ∧ factoryBlock initialWorld = .ok (some 0, ⟨⟨[]⟩, ⟨[]⟩,
          "drawing Circle\ndrawing Square\nCircle destructor called\nPure virtual destructor called\nSquare destructor called\nPure virtual destructor called\n"⟩) := by
  refine ⟨rfl, rfl, rfl, rfl⟩

/-- C13: `main` ends at the `return 0;` of its first block: run from the start
state it returns 0, everything it has written to `std::cout` is the Hawaiian
line followed by the Spicy line, and the statements after that `return`,
whatever they are (the Observer, Decorator, Strategy and Factory blocks in the
source), are not run and contribute nothing. -/
theorem C13_main_returns_after_builder_block :
    (∃ w1 : World, main initialWorld = .ok (some 0, w1)
        ∧ w1.cout = "Pizza with cross dough, mild sauce and Ham and Pineapple topping.\n"
            ++ "Pizza with pan baked dough, hot sauce and pepperoni+salami topping.\n")
      ∧ main initialWorld = builderBlock initialWorld
      ∧ (∀ rest : Exec (Option Int),
          builderBlock.thenUnlessReturned rest initialWorld = builderBlock initialWorld) := by
  have hrest : ∀ rest : Exec (Option Int),
      builderBlock.thenUnlessReturned rest initialWorld = builderBlock initialWorld := by
    intro rest
    unfold Exec.thenUnlessReturned Exec.andThen
    rw [builderBlock_initialWorld]
  refine ⟨⟨_, (hrest _).trans builderBlock_initialWorld, ?_⟩, hrest _, hrest⟩
  decide

end Patterns
